import Mathlib

/-!
Verification of the fluidsynth settings registry
(`src/include/fluidsynth/settings.h`).

The repository ships only the public header: the constants
(`FLUID_HINT_*`, `fluid_types_enum`) and the declarations of the
registry operations.  The constants and the declared C types are
embedded directly from the header.  The behaviour of the operations
(the body of `fluid_settings.c`) is not part of the sources, so each
operation below is modelled from the specification text; every such
definition carries a doc comment starting with `Modelled from the
spec:` citing what it models.

Conventions of the embedding:
* `double` values are modelled as `Rat`: the registry stores and
  compares numeric values but never performs floating-point
  arithmetic on them, so an ordered field with decidable order is a
  faithful stand-in.
* C `int` values are modelled as `Int` together with the conversion
  `toCInt`, which reduces an integer to the 32-bit two's-complement
  range exactly as the C argument conversion does on the targets
  fluidsynth supports (the header declares `int`, 32 bits).
* A registry (`fluid_settings_t`) is an association list from key
  strings to entries, kept in insertion order; `NULL`-able results
  become `Option`, C out-parameters become explicit `(success, out)`
  pairs where the failing case returns the caller's original `out`.
* `strcmp`-style byte-wise string comparison is modelled by
  `charListLe` on the key's character list (UTF-8 byte order and code
  point order agree).
-/

/-! Constants from `src/include/fluidsynth/settings.h`, lines 55-102. -/

def FLUID_HINT_BOUNDED_BELOW : Nat := 0x1

def FLUID_HINT_BOUNDED_ABOVE : Nat := 0x2

def FLUID_HINT_TOGGLED : Nat := 0x4

def FLUID_HINT_SAMPLE_RATE : Nat := 0x8

def FLUID_HINT_LOGARITHMIC : Nat := 0x10

def FLUID_HINT_INTEGER : Nat := 0x20

def FLUID_HINT_FILENAME : Nat := 0x01

def FLUID_HINT_OPTIONLIST : Nat := 0x02

/-! The `fluid_types_enum` of `settings.h`, lines 112-118: `FLUID_NO_TYPE = -1`
and the successors `FLUID_NUM_TYPE, FLUID_INT_TYPE, FLUID_STR_TYPE,
FLUID_SET_TYPE` take the C enum values -1, 0, 1, 2, 3. -/

def FLUID_NO_TYPE : Int := -1

def FLUID_NUM_TYPE : Int := 0

def FLUID_INT_TYPE : Int := 1

def FLUID_STR_TYPE : Int := 2

def FLUID_SET_TYPE : Int := 3

/-! Widest representable bounds.  The header declares the numeric
accessors over C `double` and the integer accessors over C `int`
(lines 151-175), so the widest representable bounds are the IEEE-754
binary64 extremes (here as exact rationals) and the 32-bit
two's-complement extremes. -/

def DBL_MAX_RAT : Rat := (2 : Rat) ^ 1024 - (2 : Rat) ^ 971

def DBL_MIN_RAT : Rat := -((2 : Rat) ^ 1024 - (2 : Rat) ^ 971)

def INT32_MIN : Int := -2147483648

def INT32_MAX : Int := 2147483647

/-- Conversion of an integer to the C `int` parameter type declared by
`fluid_settings_setint` (header line 165): two's-complement reduction
to 32 bits, as performed by the C argument conversion. -/
def toCInt (v : Int) : Int := (v + 2147483648) % 4294967296 - 2147483648

/-! Byte-wise lexicographic string comparison, the order `strcmp`
induces on keys and options (UTF-8 byte order coincides with code
point order). -/

def charListLe : List Char → List Char → Bool
  | [], _ => true
  | _ :: _, [] => false
  | a :: as, b :: bs => if a = b then charListLe as bs else decide (a.toNat < b.toNat)

def strLe (a b : String) : Bool := charListLe a.data b.data

def strLeP (a b : String) : Prop := strLe a b = true

instance : DecidableRel strLeP := fun a b => instDecidableEqBool (strLe a b) true

/-- Bit test on a hint bitmask, the C expression `hints & flag`. -/
def hintSet (hints flag : Nat) : Bool := (hints &&& flag) != 0

/-! The data model: a tagged variant per entry, spec section 3. -/

structure NumSetting where
  value : Rat
  default : Rat
  min : Rat
  max : Rat
  hints : Nat
deriving DecidableEq

structure IntSetting where
  value : Int
  default : Int
  min : Int
  max : Int
  hints : Nat
deriving DecidableEq

structure StrSetting where
  value : String
  default : String
  hints : Nat
  options : List String
deriving DecidableEq

inductive Entry where
  | num : NumSetting → Entry
  | int : IntSetting → Entry
  | str : StrSetting → Entry
  | set : List String → Entry
deriving DecidableEq

/-- Type tag of an entry, the values of `fluid_types_enum`. -/
def entryType : Entry → Int
  | Entry.num _ => FLUID_NUM_TYPE
  | Entry.int _ => FLUID_INT_TYPE
  | Entry.str _ => FLUID_STR_TYPE
  | Entry.set _ => FLUID_SET_TYPE

/-- Hint bitmask of an entry. -/
def entryHints : Entry → Nat
  | Entry.num e => e.hints
  | Entry.int e => e.hints
  | Entry.str e => e.hints
  | Entry.set _ => 0

/-- A registry is an association list from key strings to entries,
kept in insertion order. -/
abbrev fluid_settings_t : Type := List (String × Entry)

/-- Lookup of the first entry stored under a key. -/
def settingsLookup (s : fluid_settings_t) (name : String) : Option Entry :=
  match s with
  | [] => none
  | (k, e) :: rest => if k = name then some e else settingsLookup rest name

/-- Replacement of the first entry stored under a key, keeping order. -/
def settingsUpdate (s : fluid_settings_t) (name : String) (e₂ : Entry) : fluid_settings_t :=
  match s with
  | [] => []
  | (k, e) :: rest =>
      if k = name then (k, e₂) :: rest else (k, e) :: settingsUpdate rest name e₂

/-- Keys of a registry, in insertion order. -/
def settingsKeys (s : fluid_settings_t) : List String := s.map Prod.fst

/-- Well-formedness: keys are pairwise distinct.  The empty registry is
well-formed and every operation below preserves it. -/
def settingsWF (s : fluid_settings_t) : Prop := (settingsKeys s).Nodup

/-- Modelled from the spec: `new_fluid_settings` (header line 121),
"create() → new empty Registry". -/
def new_fluid_settings : fluid_settings_t := []

/-- Modelled from the spec: `fluid_settings_get_type` (header line 125),
"get_type(key) → TypeTag | NO_TYPE — NO_TYPE if key unknown; does not
create an Entry". -/
def fluid_settings_get_type (s : fluid_settings_t) (name : String) : Int :=
  match settingsLookup s name with
  | some e => entryType e
  | none => FLUID_NO_TYPE

/-- Modelled from the spec: `fluid_settings_get_hints` (header line 128),
"get_hints(key) → bitset — 0 if key unknown". -/
def fluid_settings_get_hints (s : fluid_settings_t) (name : String) : Nat :=
  match settingsLookup s name with
  | some e => entryHints e
  | none => 0

/-- Clamp of a numeric write into the active bounds of its entry: a
bound participates only when the matching hint bit is set.  The spec
leaves reject-versus-clamp open (section 9); the model clamps, one of
the two behaviours the spec allows. -/
def clampNum (e : NumSetting) (v : Rat) : Rat :=
  let lo : Rat := if hintSet e.hints FLUID_HINT_BOUNDED_BELOW = true ∧ v < e.min then e.min else v
  if hintSet e.hints FLUID_HINT_BOUNDED_ABOVE = true ∧ e.max < lo then e.max else lo

/-- Clamp of an integer write into the active bounds of its entry. -/
def clampInt (e : IntSetting) (v : Int) : Int :=
  let lo : Int := if hintSet e.hints FLUID_HINT_BOUNDED_BELOW = true ∧ v < e.min then e.min else v
  if hintSet e.hints FLUID_HINT_BOUNDED_ABOVE = true ∧ e.max < lo then e.max else lo

/-- Modelled from the spec: `fluid_settings_setnum` (header line 152),
the implementation body is absent from src/.  "set(key, value): if key
unknown, creates an Entry of the matching type with default = value
and unbounded hints, then stores value.  If key exists with a
different type, fails (TypeMismatch) without mutation."  Bounded
writes are clamped into the active bounds. -/
def fluid_settings_setnum (s : fluid_settings_t) (name : String) (val : Rat) :
    fluid_settings_t × Bool :=
  match settingsLookup s name with
  | none =>
      (s ++ [(name, Entry.num { value := val, default := val, min := DBL_MIN_RAT, max := DBL_MAX_RAT, hints := 0 })], true)
  | some (Entry.num e) => (settingsUpdate s name (Entry.num { e with value := clampNum e val }), true)
  | some _ => (s, false)

/-- Modelled from the spec: `fluid_settings_setint` (header line 165),
same contract as `fluid_settings_setnum`; the declared parameter type
is C `int`, modelled by the `toCInt` reduction of the argument. -/
def fluid_settings_setint (s : fluid_settings_t) (name : String) (val : Int) :
    fluid_settings_t × Bool :=
  match settingsLookup s name with
  | none =>
      (s ++ [(name, Entry.int { value := toCInt val, default := toCInt val, min := INT32_MIN, max := INT32_MAX, hints := 0 })], true)
  | some (Entry.int e) => (settingsUpdate s name (Entry.int { e with value := clampInt e (toCInt val) }), true)
  | some _ => (s, false)

/-- Modelled from the spec: `fluid_settings_setstr` (header line 134),
same creation-on-first-write and type-mismatch contract for the
string variant; a lazily created string entry has no option list. -/
def fluid_settings_setstr (s : fluid_settings_t) (name : String) (str : String) :
    fluid_settings_t × Bool :=
  match settingsLookup s name with
  | none =>
      (s ++ [(name, Entry.str { value := str, default := str, hints := 0, options := [] })], true)
  | some (Entry.str e) => (settingsUpdate s name (Entry.str { e with value := str }), true)
  | some _ => (s, false)

/-- Modelled from the spec: explicit registration of a numeric entry
(the `fluid_settings_register_num` of the implementation, absent from
src/): "Entries are created lazily on first write or explicit
registration" and "optionally acquires bounds/hints at creation time —
never afterward"; registration of an existing key fails without
mutation. -/
def fluid_settings_register_num (s : fluid_settings_t) (name : String)
    (def₀ min₀ max₀ : Rat) (hints : Nat) : fluid_settings_t × Bool :=
  match settingsLookup s name with
  | none =>
      (s ++ [(name, Entry.num { value := def₀, default := def₀, min := min₀, max := max₀, hints := hints })], true)
  | some _ => (s, false)

/-- Modelled from the spec: explicit registration of an integer entry
(the `fluid_settings_register_int` of the implementation, absent from
src/), as for the numeric variant. -/
def fluid_settings_register_int (s : fluid_settings_t) (name : String)
    (def₀ min₀ max₀ : Int) (hints : Nat) : fluid_settings_t × Bool :=
  match settingsLookup s name with
  | none =>
      (s ++ [(name, Entry.int { value := toCInt def₀, default := toCInt def₀, min := toCInt min₀, max := toCInt max₀, hints := hints })], true)
  | some _ => (s, false)

/-- Modelled from the spec: explicit registration of a string entry
(the `fluid_settings_register_str` of the implementation, absent from
src/), carrying hints and the option candidates ("options: ordered
sequence of string, present only when hints include OPTIONLIST"). -/
def fluid_settings_register_str (s : fluid_settings_t) (name : String)
    (def₀ : String) (hints : Nat) (options : List String) : fluid_settings_t × Bool :=
  match settingsLookup s name with
  | none =>
      (s ++ [(name, Entry.str { value := def₀, default := def₀, hints := hints, options := options })], true)
  | some _ => (s, false)

/-- Modelled from the spec: `fluid_settings_getnum` (header line 155),
"get(key, &out) → bool: false and out unmodified if key unknown or of
a different type; else true and out = value".  The C out-parameter is
made explicit: the result pair carries the final contents of `*val`. -/
def fluid_settings_getnum (s : fluid_settings_t) (name : String) (out : Rat) : Bool × Rat :=
  match settingsLookup s name with
  | some (Entry.num e) => (true, e.value)
  | _ => (false, out)

/-- Modelled from the spec: `fluid_settings_getint` (header line 168),
as for the numeric variant, over C `int`. -/
def fluid_settings_getint (s : fluid_settings_t) (name : String) (out : Int) : Bool × Int :=
  match settingsLookup s name with
  | some (Entry.int e) => (true, e.value)
  | _ => (false, out)

/-- Modelled from the spec: `fluid_settings_getstr` (header line 143),
as for the numeric variant; the returned view is the stored string. -/
def fluid_settings_getstr (s : fluid_settings_t) (name : String) (out : String) : Bool × String :=
  match settingsLookup s name with
  | some (Entry.str e) => (true, e.value)
  | _ => (false, out)

/-- Modelled from the spec: `fluid_settings_getnum_default` (header
line 158), "get_default(key) → value: returns the type's
zero-equivalent if key unknown, else the stored default". -/
def fluid_settings_getnum_default (s : fluid_settings_t) (name : String) : Rat :=
  match settingsLookup s name with
  | some (Entry.num e) => e.default
  | _ => 0

/-- Modelled from the spec: `fluid_settings_getint_default` (header
line 171), as for the numeric variant. -/
def fluid_settings_getint_default (s : fluid_settings_t) (name : String) : Int :=
  match settingsLookup s name with
  | some (Entry.int e) => e.default
  | _ => 0

/-- Modelled from the spec: `fluid_settings_getstr_default` (header
line 146); the C result is a `char` pointer, `none` models `NULL` for
a key that is unknown or not a string. -/
def fluid_settings_getstr_default (s : fluid_settings_t) (name : String) : Option String :=
  match settingsLookup s name with
  | some (Entry.str e) => some e.default
  | _ => none

/-- Modelled from the spec: `fluid_settings_getnum_range` (header line
161), "get_range(key, &min, &max): writes the widest representable
bounds if key unknown or unbounded; else writes the active bounds".
Each bound is active exactly when its hint bit is set.  The function
is total: it always writes both out-parameters and returns `void`. -/
def fluid_settings_getnum_range (s : fluid_settings_t) (name : String) : Rat × Rat :=
  match settingsLookup s name with
  | some (Entry.num e) =>
      ((if hintSet e.hints FLUID_HINT_BOUNDED_BELOW = true then e.min else DBL_MIN_RAT),
       (if hintSet e.hints FLUID_HINT_BOUNDED_ABOVE = true then e.max else DBL_MAX_RAT))
  | _ => (DBL_MIN_RAT, DBL_MAX_RAT)

/-- Modelled from the spec: `fluid_settings_getint_range` (header line
174), as for the numeric variant, over C `int`. -/
def fluid_settings_getint_range (s : fluid_settings_t) (name : String) : Int × Int :=
  match settingsLookup s name with
  | some (Entry.int e) =>
      ((if hintSet e.hints FLUID_HINT_BOUNDED_BELOW = true then e.min else INT32_MIN),
       (if hintSet e.hints FLUID_HINT_BOUNDED_ABOVE = true then e.max else INT32_MAX))
  | _ => (INT32_MIN, INT32_MAX)

/-- Modelled from the spec: `fluid_settings_foreach` (header line 199),
"visits every registered key exactly once; traversal order is
unspecified but stable for a given Registry state (typically insertion
order)".  The callback sequence is returned as the list of
`(key, type)` arguments, in visitation order. -/
def fluid_settings_foreach (s : fluid_settings_t) : List (String × Int) :=
  s.map (fun p => (p.1, entryType p.2))

/-- Modelled from the spec: `fluid_settings_foreach_alpha` (header line
202), "same visitation set, ordered by byte-wise lexicographic
comparison of key strings". -/
def fluid_settings_foreach_alpha (s : fluid_settings_t) : List (String × Int) :=
  (List.insertionSort strLeP (settingsKeys s)).map (fun k => (k, fluid_settings_get_type s k))

/-- Modelled from the spec: `fluid_settings_option_count` (header line
191), "option_count(key) → int: size of the options sequence, 0 if
not applicable"; the declared C result type is `int`. -/
def fluid_settings_option_count (s : fluid_settings_t) (name : String) : Int :=
  match settingsLookup s name with
  | some (Entry.str e) =>
      if hintSet e.hints FLUID_HINT_OPTIONLIST = true then (e.options.length : Int) else 0
  | _ => 0

/-- Modelled from the spec: `fluid_settings_foreach_option` (header
line 183), "visits the options sequence of a string Entry carrying the
OPTIONLIST hint; calling on a non-OPTIONLIST or unknown key visits
nothing".  The callback sequence is returned as the list of visited
options, in visitation order. -/
def fluid_settings_foreach_option (s : fluid_settings_t) (name : String) : List String :=
  match settingsLookup s name with
  | some (Entry.str e) =>
      if hintSet e.hints FLUID_HINT_OPTIONLIST = true then e.options else []
  | _ => []

/-- Modelled from the spec: `fluid_settings_foreach_option_alpha`
(header line 187), the option visitation sorted lexicographically. -/
def fluid_settings_foreach_option_alpha (s : fluid_settings_t) (name : String) : List String :=
  List.insertionSort strLeP (fluid_settings_foreach_option s name)

/-- A single mutating registry operation, used to state properties of
arbitrary sequences of writes and registrations. -/
inductive SettingsOp where
  | setstr : String → String → SettingsOp
  | setnum : String → Rat → SettingsOp
  | setint : String → Int → SettingsOp
  | registerNum : String → Rat → Rat → Rat → Nat → SettingsOp
  | registerInt : String → Int → Int → Int → Nat → SettingsOp
  | registerStr : String → String → Nat → List String → SettingsOp

/-- State reached after one mutating operation (failed operations leave
the registry unchanged). -/
def applyOp (s : fluid_settings_t) : SettingsOp → fluid_settings_t
  | SettingsOp.setstr n v => (fluid_settings_setstr s n v).1
  | SettingsOp.setnum n v => (fluid_settings_setnum s n v).1
  | SettingsOp.setint n v => (fluid_settings_setint s n v).1
  | SettingsOp.registerNum n d lo hi h => (fluid_settings_register_num s n d lo hi h).1
  | SettingsOp.registerInt n d lo hi h => (fluid_settings_register_int s n d lo hi h).1
  | SettingsOp.registerStr n d h o => (fluid_settings_register_str s n d h o).1

/-- State reached after a sequence of mutating operations. -/
def applyOps (s : fluid_settings_t) (l : List SettingsOp) : fluid_settings_t :=
  List.foldl applyOp s l

/-! Basic lemmas about lookup, update and append on registries. -/

theorem settingsLookup_append_left {s : fluid_settings_t} {k : String} {e : Entry}
    (t : fluid_settings_t) (h : settingsLookup s k = some e) :
    settingsLookup (s ++ t) k = some e := by
  induction s with
  | nil => simp [settingsLookup] at h
  | cons p rest ih =>
      obtain ⟨kk, ee⟩ := p
      by_cases hk : kk = k
      · simp [settingsLookup, hk] at h ⊢
        exact h
      · simp [settingsLookup, hk] at h ⊢
        exact ih h

theorem settingsLookup_append_none {s : fluid_settings_t} {k : String}
    (t : fluid_settings_t) (h : settingsLookup s k = none) :
    settingsLookup (s ++ t) k = settingsLookup t k := by
  induction s with
  | nil => simp
  | cons p rest ih =>
      obtain ⟨kk, ee⟩ := p
      by_cases hk : kk = k
      · simp [settingsLookup, hk] at h
      · simp [settingsLookup, hk] at h ⊢
        exact ih h

theorem settingsLookup_append_self {s : fluid_settings_t} {k : String} (e : Entry)
    (h : settingsLookup s k = none) :
    settingsLookup (s ++ [(k, e)]) k = some e := by
  rw [settingsLookup_append_none _ h]
  simp [settingsLookup]

theorem settingsLookup_append_single_other {s : fluid_settings_t} {n k : String} (e : Entry)
    (h : n ≠ k) : settingsLookup (s ++ [(n, e)]) k = settingsLookup s k := by
  induction s with
  | nil => simp [settingsLookup, h]
  | cons p rest ih =>
      obtain ⟨kk, ee⟩ := p
      by_cases hk : kk = k
      · simp [settingsLookup, hk]
      · simp [settingsLookup, hk]
        exact ih

theorem settingsLookup_update_self {s : fluid_settings_t} {k : String} {e : Entry}
    (e₂ : Entry) (h : settingsLookup s k = some e) :
    settingsLookup (settingsUpdate s k e₂) k = some e₂ := by
  induction s with
  | nil => simp [settingsLookup] at h
  | cons p rest ih =>
      obtain ⟨kk, ee⟩ := p
      by_cases hk : kk = k
      · simp [settingsLookup, settingsUpdate, hk]
      · simp [settingsLookup, settingsUpdate, hk] at h ⊢
        exact ih h

theorem settingsLookup_update_other {s : fluid_settings_t} {k n : String}
    (e₂ : Entry) (h : k ≠ n) :
    settingsLookup (settingsUpdate s k e₂) n = settingsLookup s n := by
  induction s with
  | nil => simp [settingsUpdate]
  | cons p rest ih =>
      obtain ⟨kk, ee⟩ := p
      by_cases hk : kk = k
      · subst hk
        simp [settingsLookup, settingsUpdate, h]
      · by_cases hn : kk = n
        · subst hn
          simp [settingsLookup, settingsUpdate, hk]
        · simp [settingsLookup, settingsUpdate, hk, hn]
          exact ih

theorem settingsKeys_update (s : fluid_settings_t) (k : String) (e₂ : Entry) :
    settingsKeys (settingsUpdate s k e₂) = settingsKeys s := by
  induction s with
  | nil => simp [settingsUpdate]
  | cons p rest ih =>
      obtain ⟨kk, ee⟩ := p
      by_cases hk : kk = k
      · simp [settingsUpdate, settingsKeys, hk]
      · simp [settingsUpdate, settingsKeys, hk] at ih ⊢
        exact ih

theorem settingsLookup_isSome_iff {s : fluid_settings_t} {k : String} :
    (settingsLookup s k).isSome = true ↔ k ∈ settingsKeys s := by
  induction s with
  | nil => simp [settingsLookup, settingsKeys]
  | cons p rest ih =>
      obtain ⟨kk, ee⟩ := p
      by_cases hk : kk = k
      · simp [settingsLookup, settingsKeys, hk]
      · simp [settingsLookup, settingsKeys, hk] at ih ⊢
        rw [ih]
        constructor
        · exact fun hm => Or.inr hm
        · intro hm
          rcases hm with hm | hm
          · exact absurd hm.symm hk
          · exact hm

theorem settingsLookup_none_iff {s : fluid_settings_t} {k : String} :
    settingsLookup s k = none ↔ k ∉ settingsKeys s := by
  rw [← settingsLookup_isSome_iff]
  cases settingsLookup s k <;> simp

/-! Well-formedness is preserved by every operation. -/

theorem settingsWF_empty : settingsWF new_fluid_settings := by
  simp [settingsWF, new_fluid_settings, settingsKeys]

theorem settingsWF_append {s : fluid_settings_t} {k : String} (e : Entry)
    (h : settingsWF s) (hk : settingsLookup s k = none) :
    settingsWF (s ++ [(k, e)]) := by
  have hmem : k ∉ settingsKeys s := settingsLookup_none_iff.mp hk
  have hkeys : settingsKeys (s ++ [(k, e)]) = settingsKeys s ++ [k] := by
    simp [settingsKeys]
  rw [settingsWF, hkeys, List.nodup_append]
  refine ⟨h, List.nodup_singleton k, ?_⟩
  intro a ha hb
  simp at hb
  subst hb
  exact hmem ha

theorem settingsWF_update {s : fluid_settings_t} (k : String) (e₂ : Entry)
    (h : settingsWF s) : settingsWF (settingsUpdate s k e₂) := by
  simp [settingsWF, settingsKeys_update]
  exact h

theorem settingsWF_applyOp {s : fluid_settings_t} (h : settingsWF s) (op : SettingsOp) :
    settingsWF (applyOp s op) := by
  cases op <;>
    simp only [applyOp, fluid_settings_setstr, fluid_settings_setnum, fluid_settings_setint,
      fluid_settings_register_num, fluid_settings_register_int, fluid_settings_register_str] <;>
    rcases hl : settingsLookup s _ with _ | e <;>
    first
      | exact settingsWF_append _ h hl
      | exact h
      | (cases e <;> first
          | exact settingsWF_update _ _ h
          | exact h)

theorem settingsWF_applyOps {s : fluid_settings_t} (h : settingsWF s) (l : List SettingsOp) :
    settingsWF (applyOps s l) := by
  induction l generalizing s with
  | nil => exact h
  | cons op rest ih => exact ih (settingsWF_applyOp h op)

/-! The byte-wise comparison is a total, transitive, antisymmetric
order, so the alpha traversals below are genuine sorts. -/

theorem charListLe_total : ∀ as bs : List Char,
    charListLe as bs = true ∨ charListLe bs as = true
  | [], _ => Or.inl rfl
  | _ :: _, [] => Or.inr rfl
  | a :: as, b :: bs => by
      by_cases hab : a = b
      · subst hab
        simpa [charListLe] using charListLe_total as bs
      · have hba : ¬ b = a := fun h => hab h.symm
        have hne : a.toNat ≠ b.toNat := fun h => hab (Char.ext (UInt32.ext h))
        simp [charListLe, hab, hba]
        omega

theorem charListLe_trans : ∀ as bs cs : List Char,
    charListLe as bs = true → charListLe bs cs = true → charListLe as cs = true
  | [], _, _ => fun _ _ => rfl
  | _ :: _, [], _ => by intro h _; simp [charListLe] at h
  | _ :: _, _ :: _, [] => by intro _ h; simp [charListLe] at h
  | a :: as, b :: bs, c :: cs => by
      intro h1 h2
      by_cases hab : a = b
      · subst hab
        by_cases hac : a = c
        · subst hac
          simp [charListLe] at h1 h2 ⊢
          exact charListLe_trans as bs cs h1 h2
        · simp [charListLe, hac] at h2 ⊢
          exact h2
      · by_cases hbc : b = c
        · subst hbc
          simp [charListLe, hab] at h1 ⊢
          exact h1
        · simp [charListLe, hab] at h1
          simp [charListLe, hbc] at h2
          have hac : ¬ a = c := by
            intro h
            subst h
            omega
          simp [charListLe, hac]
          omega

theorem charListLe_antisymm : ∀ as bs : List Char,
    charListLe as bs = true → charListLe bs as = true → as = bs
  | [], [] => fun _ _ => rfl
  | [], _ :: _ => by intro _ h; simp [charListLe] at h
  | _ :: _, [] => by intro h _; simp [charListLe] at h
  | a :: as, b :: bs => by
      intro h1 h2
      by_cases hab : a = b
      · subst hab
        simp [charListLe] at h1 h2
        rw [charListLe_antisymm as bs h1 h2]
      · have hba : ¬ b = a := fun h => hab h.symm
        simp [charListLe, hab] at h1
        simp [charListLe, hba] at h2
        omega

instance : IsTotal String strLeP :=
  ⟨fun a b => charListLe_total a.data b.data⟩

instance : IsTrans String strLeP :=
  ⟨fun a b c h1 h2 => charListLe_trans a.data b.data c.data h1 h2⟩

instance : IsAntisymm String strLeP := by
  refine ⟨fun a b h1 h2 => ?_⟩
  cases a
  cases b
  exact congrArg String.mk (charListLe_antisymm _ _ h1 h2)

theorem strLeP_total (a b : String) : strLeP a b ∨ strLeP b a :=
  charListLe_total a.data b.data

/-! Effect of a single mutating operation on the entry stored under an
arbitrary key: either the key is untouched, or only the current value
of its entry changes (same variant, same default, bounds, hints,
options), or the key was unknown and an entry was created. -/

theorem settingsLookup_applyOp (s : fluid_settings_t) (op : SettingsOp) (k : String) :
    settingsLookup (applyOp s op) k = settingsLookup s k ∨
    (∃ a : NumSetting, ∃ v : Rat, settingsLookup s k = some (Entry.num a) ∧
        settingsLookup (applyOp s op) k = some (Entry.num { a with value := v })) ∨
    (∃ a : IntSetting, ∃ v : Int, settingsLookup s k = some (Entry.int a) ∧
        settingsLookup (applyOp s op) k = some (Entry.int { a with value := v })) ∨
    (∃ a : StrSetting, ∃ v : String, settingsLookup s k = some (Entry.str a) ∧
        settingsLookup (applyOp s op) k = some (Entry.str { a with value := v })) ∨
    (settingsLookup s k = none ∧ ∃ e, settingsLookup (applyOp s op) k = some e) := by
  cases op with
  | setstr n v =>
      simp only [applyOp, fluid_settings_setstr]
      rcases hl : settingsLookup s n with _ | e
      · by_cases hnk : n = k
        · subst hnk
          refine Or.inr (Or.inr (Or.inr (Or.inr ⟨hl, ?_⟩)))
          exact ⟨_, settingsLookup_append_self _ hl⟩
        · exact Or.inl (settingsLookup_append_single_other _ hnk)
      · cases e with
        | str a =>
            by_cases hnk : n = k
            · subst hnk
              exact Or.inr (Or.inr (Or.inr (Or.inl
                ⟨a, v, hl, settingsLookup_update_self _ hl⟩)))
            · exact Or.inl (settingsLookup_update_other _ hnk)
        | num a => exact Or.inl rfl
        | int a => exact Or.inl rfl
        | set a => exact Or.inl rfl
  | setnum n v =>
      simp only [applyOp, fluid_settings_setnum]
      rcases hl : settingsLookup s n with _ | e
      · by_cases hnk : n = k
        · subst hnk
          refine Or.inr (Or.inr (Or.inr (Or.inr ⟨hl, ?_⟩)))
          exact ⟨_, settingsLookup_append_self _ hl⟩
        · exact Or.inl (settingsLookup_append_single_other _ hnk)
      · cases e with
        | num a =>
            by_cases hnk : n = k
            · subst hnk
              exact Or.inr (Or.inl ⟨a, clampNum a v, hl, settingsLookup_update_self _ hl⟩)
            · exact Or.inl (settingsLookup_update_other _ hnk)
        | str a => exact Or.inl rfl
        | int a => exact Or.inl rfl
        | set a => exact Or.inl rfl
  | setint n v =>
      simp only [applyOp, fluid_settings_setint]
      rcases hl : settingsLookup s n with _ | e
      · by_cases hnk : n = k
        · subst hnk
          refine Or.inr (Or.inr (Or.inr (Or.inr ⟨hl, ?_⟩)))
          exact ⟨_, settingsLookup_append_self _ hl⟩
        · exact Or.inl (settingsLookup_append_single_other _ hnk)
      · cases e with
        | int a =>
            by_cases hnk : n = k
            · subst hnk
              exact Or.inr (Or.inr (Or.inl
                ⟨a, clampInt a (toCInt v), hl, settingsLookup_update_self _ hl⟩))
            · exact Or.inl (settingsLookup_update_other _ hnk)
        | str a => exact Or.inl rfl
        | num a => exact Or.inl rfl
        | set a => exact Or.inl rfl
  | registerNum n d lo hi hs =>
      simp only [applyOp, fluid_settings_register_num]
      rcases hl : settingsLookup s n with _ | e
      · by_cases hnk : n = k
        · subst hnk
          refine Or.inr (Or.inr (Or.inr (Or.inr ⟨hl, ?_⟩)))
          exact ⟨_, settingsLookup_append_self _ hl⟩
        · exact Or.inl (settingsLookup_append_single_other _ hnk)
      · exact Or.inl rfl
  | registerInt n d lo hi hs =>
      simp only [applyOp, fluid_settings_register_int]
      rcases hl : settingsLookup s n with _ | e
      · by_cases hnk : n = k
        · subst hnk
          refine Or.inr (Or.inr (Or.inr (Or.inr ⟨hl, ?_⟩)))
          exact ⟨_, settingsLookup_append_self _ hl⟩
        · exact Or.inl (settingsLookup_append_single_other _ hnk)
      · exact Or.inl rfl
  | registerStr n d hs o =>
      simp only [applyOp, fluid_settings_register_str]
      rcases hl : settingsLookup s n with _ | e
      · by_cases hnk : n = k
        · subst hnk
          refine Or.inr (Or.inr (Or.inr (Or.inr ⟨hl, ?_⟩)))
          exact ⟨_, settingsLookup_append_self _ hl⟩
        · exact Or.inl (settingsLookup_append_single_other _ hnk)
      · exact Or.inl rfl

theorem getDefault_applyOp {s : fluid_settings_t} {k : String} (op : SettingsOp)
    (h : (settingsLookup s k).isSome = true) :
    (settingsLookup (applyOp s op) k).isSome = true ∧
    fluid_settings_getnum_default (applyOp s op) k = fluid_settings_getnum_default s k ∧
    fluid_settings_getint_default (applyOp s op) k = fluid_settings_getint_default s k ∧
    fluid_settings_getstr_default (applyOp s op) k = fluid_settings_getstr_default s k := by
  rcases settingsLookup_applyOp s op k with heq | ⟨a, v, h1, h2⟩ | ⟨a, v, h1, h2⟩ |
    ⟨a, v, h1, h2⟩ | ⟨h1, h2⟩
  · rw [fluid_settings_getnum_default, fluid_settings_getint_default,
      fluid_settings_getstr_default, fluid_settings_getnum_default,
      fluid_settings_getint_default, fluid_settings_getstr_default, heq]
    exact ⟨heq ▸ h, rfl, rfl, rfl⟩
  · simp [fluid_settings_getnum_default, fluid_settings_getint_default,
      fluid_settings_getstr_default, h1, h2]
  · simp [fluid_settings_getnum_default, fluid_settings_getint_default,
      fluid_settings_getstr_default, h1, h2]
  · simp [fluid_settings_getnum_default, fluid_settings_getint_default,
      fluid_settings_getstr_default, h1, h2]
  · rw [h1] at h
    simp at h

/-- A value of the declared C `int` parameter type is unchanged by the
argument conversion exactly when it lies in the 32-bit range. -/
theorem toCInt_eq_self {v : Int} (h1 : INT32_MIN ≤ v) (h2 : v ≤ INT32_MAX) : toCInt v = v := by
  simp only [INT32_MIN] at h1
  simp only [INT32_MAX] at h2
  simp only [toCInt]
  omega

/-- C10: the type tag enumeration has the values NO_TYPE = -1,
NUMERIC = 0, INTEGER = 1, STRING = 2, SET = 3, and the hint constants
the values BOUNDED_BELOW = 0x1, BOUNDED_ABOVE = 0x2, TOGGLED = 0x4,
SAMPLE_RATE(-RELATIVE) = 0x8, LOGARITHMIC = 0x10, INTEGER(-STEP) =
0x20, with the string-only hints FILENAME = 0x01 and OPTIONLIST =
0x02; consequently FILENAME coincides numerically with BOUNDED_BELOW
and OPTIONLIST with BOUNDED_ABOVE, so a hint bitset is interpretable
only together with the type tag of its key. -/
theorem spec_c10_constants :
    FLUID_NO_TYPE = -1 ∧ FLUID_NUM_TYPE = 0 ∧ FLUID_INT_TYPE = 1 ∧
    FLUID_STR_TYPE = 2 ∧ FLUID_SET_TYPE = 3 ∧
    FLUID_HINT_BOUNDED_BELOW = 0x1 ∧ FLUID_HINT_BOUNDED_ABOVE = 0x2 ∧
    FLUID_HINT_TOGGLED = 0x4 ∧ FLUID_HINT_SAMPLE_RATE = 0x8 ∧
    FLUID_HINT_LOGARITHMIC = 0x10 ∧ FLUID_HINT_INTEGER = 0x20 ∧
    FLUID_HINT_FILENAME = 0x01 ∧ FLUID_HINT_OPTIONLIST = 0x02 ∧
    FLUID_HINT_FILENAME = FLUID_HINT_BOUNDED_BELOW ∧
    FLUID_HINT_OPTIONLIST = FLUID_HINT_BOUNDED_ABOVE := by
  refine ⟨rfl, rfl, rfl, rfl, rfl, rfl, rfl, rfl, rfl, rfl, rfl, rfl, rfl, rfl, rfl⟩

/-- C1: for a key never previously registered, the matching set creates
an entry of the matching type whose default equals the written value
and whose hints are unbounded (0), stores the value, and the matching
get then succeeds and returns exactly it, for the string, floating and
integer variants.  The integer variant ranges over the values of its
declared C `int` parameter type, the 32-bit range. -/
theorem spec_c1_set_get_roundtrip (s : fluid_settings_t) (name : String)
    (h : settingsLookup s name = none) :
    (∀ v : String,
        (fluid_settings_setstr s name v).2 = true ∧
        settingsLookup (fluid_settings_setstr s name v).1 name =
          some (Entry.str { value := v, default := v, hints := 0, options := [] }) ∧
        (∀ out, fluid_settings_getstr (fluid_settings_setstr s name v).1 name out = (true, v))) ∧
    (∀ v : Rat,
        (fluid_settings_setnum s name v).2 = true ∧
        settingsLookup (fluid_settings_setnum s name v).1 name =
          some (Entry.num { value := v, default := v, min := DBL_MIN_RAT, max := DBL_MAX_RAT, hints := 0 }) ∧
        (∀ out, fluid_settings_getnum (fluid_settings_setnum s name v).1 name out = (true, v))) ∧
    (∀ v : Int, INT32_MIN ≤ v → v ≤ INT32_MAX →
        (fluid_settings_setint s name v).2 = true ∧
        settingsLookup (fluid_settings_setint s name v).1 name =
          some (Entry.int { value := v, default := v, min := INT32_MIN, max := INT32_MAX, hints := 0 }) ∧
        (∀ out, fluid_settings_getint (fluid_settings_setint s name v).1 name out = (true, v))) := by
  refine ⟨fun v => ?_, fun v => ?_, fun v h1 h2 => ?_⟩
  · have hstep : fluid_settings_setstr s name v =
        (s ++ [(name, Entry.str { value := v, default := v, hints := 0, options := [] })], true) := by
      simp only [fluid_settings_setstr, h]
    have hlook := settingsLookup_append_self
        (Entry.str { value := v, default := v, hints := 0, options := [] }) h
    rw [hstep]
    exact ⟨rfl, hlook, fun out => by simp [fluid_settings_getstr, hlook]⟩
  · have hstep : fluid_settings_setnum s name v =
        (s ++ [(name, Entry.num { value := v, default := v, min := DBL_MIN_RAT, max := DBL_MAX_RAT, hints := 0 })], true) := by
      simp only [fluid_settings_setnum, h]
    have hlook := settingsLookup_append_self
        (Entry.num { value := v, default := v, min := DBL_MIN_RAT, max := DBL_MAX_RAT, hints := 0 }) h
    rw [hstep]
    exact ⟨rfl, hlook, fun out => by simp [fluid_settings_getnum, hlook]⟩
  · have hv : toCInt v = v := toCInt_eq_self h1 h2
    have hstep : fluid_settings_setint s name v =
        (s ++ [(name, Entry.int { value := v, default := v, min := INT32_MIN, max := INT32_MAX, hints := 0 })], true) := by
      simp only [fluid_settings_setint, h, hv]
    have hlook := settingsLookup_append_self
        (Entry.int { value := v, default := v, min := INT32_MIN, max := INT32_MAX, hints := 0 }) h
    rw [hstep]
    exact ⟨rfl, hlook, fun out => by simp [fluid_settings_getint, hlook]⟩

theorem spec_c1_set_get_roundtrip_witness :
    fluid_settings_getstr (fluid_settings_setstr new_fluid_settings "audio.driver" "alsa").1
      "audio.driver" "" = (true, "alsa") ∧
    fluid_settings_getnum (fluid_settings_setnum new_fluid_settings "synth.gain" 1).1
      "synth.gain" 0 = (true, 1) ∧
    fluid_settings_getint (fluid_settings_setint new_fluid_settings "synth.polyphony" 7).1
      "synth.polyphony" 0 = (true, 7) := by
  refine ⟨?_, ?_, ?_⟩
  · exact ((spec_c1_set_get_roundtrip new_fluid_settings "audio.driver" rfl).1 "alsa").2.2 ""
  · exact ((spec_c1_set_get_roundtrip new_fluid_settings "synth.gain" rfl).2.1 1).2.2 0
  · exact ((spec_c1_set_get_roundtrip new_fluid_settings "synth.polyphony" rfl).2.2 7
      (by decide) (by decide)).2.2 0

/-- C3: for every registry, every key that already has an entry, and
every sequence of subsequent mutating operations (writes and
registration attempts), the entry survives and all three get-default
accessors return exactly what they returned before the sequence: the
default is fixed at entry creation and never mutated by writes. -/
theorem spec_c3_default_preservation (s : fluid_settings_t) (l : List SettingsOp) (k : String)
    (h : (settingsLookup s k).isSome = true) :
    (settingsLookup (applyOps s l) k).isSome = true ∧
    fluid_settings_getnum_default (applyOps s l) k = fluid_settings_getnum_default s k ∧
    fluid_settings_getint_default (applyOps s l) k = fluid_settings_getint_default s k ∧
    fluid_settings_getstr_default (applyOps s l) k = fluid_settings_getstr_default s k := by
  induction l generalizing s with
  | nil => exact ⟨h, rfl, rfl, rfl⟩
  | cons op rest ih =>
      have h1 := getDefault_applyOp op h
      have h2 := ih (applyOp s op) h1.1
      exact ⟨h2.1, h2.2.1.trans h1.2.1, h2.2.2.1.trans h1.2.2.1, h2.2.2.2.trans h1.2.2.2⟩

theorem spec_c3_default_preservation_witness :
    fluid_settings_getnum_default
        (applyOps (fluid_settings_setnum new_fluid_settings "k" 1).1 [SettingsOp.setnum "k" 2]) "k" =
      fluid_settings_getnum_default (fluid_settings_setnum new_fluid_settings "k" 1).1 "k" ∧
    fluid_settings_getnum_default (fluid_settings_setnum new_fluid_settings "k" 1).1 "k" = 1 ∧
    fluid_settings_getnum
        (applyOps (fluid_settings_setnum new_fluid_settings "k" 1).1 [SettingsOp.setnum "k" 2]) "k" 0 =
      (true, 2) := by
  refine ⟨?_, rfl, rfl⟩
  exact (spec_c3_default_preservation (fluid_settings_setnum new_fluid_settings "k" 1).1
    [SettingsOp.setnum "k" 2] "k" rfl).2.1

/-- C9 counterexample to "integer entries store 64-bit values": the
integer accessors are declared over C `int` (header lines 164-175), a
32-bit type, so the int64 value 2147483648 = 2^31 does not round-trip:
written with the integer setter on a fresh key it reads back as
-2147483648. -/
theorem spec_c9_counterexample :
    fluid_settings_getint (fluid_settings_setint new_fluid_settings "k" 2147483648).1 "k" 0 =
      (true, -2147483648) ∧
    ¬ (fluid_settings_getint (fluid_settings_setint new_fluid_settings "k" 2147483648).1 "k" 0 =
        (true, 2147483648)) := by
  constructor
  · rfl
  · intro hcontra
    have : (-2147483648 : Int) = 2147483648 := congrArg Prod.snd (rfl.trans hcontra)
    omega

/-- C9 amended: integer entries store C `int` (32-bit) quantities:
value, default, min and max all lie in the 32-bit range, and every
value representable as a 32-bit signed integer round-trips through the
integer setter and getter without truncation; the widest bounds stored
at creation are the 32-bit extremes. -/
theorem spec_c9_int32_roundtrip (s : fluid_settings_t) (name : String) (v : Int)
    (h : settingsLookup s name = none) (h1 : INT32_MIN ≤ v) (h2 : v ≤ INT32_MAX) :
    (fluid_settings_setint s name v).2 = true ∧
    (∀ out, fluid_settings_getint (fluid_settings_setint s name v).1 name out = (true, v)) ∧
    fluid_settings_getint_default (fluid_settings_setint s name v).1 name = v ∧
    fluid_settings_getint_range (fluid_settings_setint s name v).1 name =
      (INT32_MIN, INT32_MAX) := by
  have hv : toCInt v = v := toCInt_eq_self h1 h2
  have hstep : fluid_settings_setint s name v =
      (s ++ [(name, Entry.int { value := v, default := v, min := INT32_MIN, max := INT32_MAX, hints := 0 })], true) := by
    simp only [fluid_settings_setint, h, hv]
  have hlook := settingsLookup_append_self
      (Entry.int { value := v, default := v, min := INT32_MIN, max := INT32_MAX, hints := 0 }) h
  rw [hstep]
  refine ⟨rfl, fun out => by simp [fluid_settings_getint, hlook], ?_, ?_⟩
  · simp [fluid_settings_getint_default, hlook]
  · simp [fluid_settings_getint_range, hlook, hintSet]

theorem spec_c9_int32_roundtrip_witness :
    fluid_settings_getint (fluid_settings_setint new_fluid_settings "k" 2147483647).1 "k" 0 =
      (true, 2147483647) ∧
    fluid_settings_getint_range (fluid_settings_setint new_fluid_settings "k" 2147483647).1 "k" =
      (INT32_MIN, INT32_MAX) := by
  have h := spec_c9_int32_roundtrip new_fluid_settings "k" 2147483647 rfl
    (by decide) (by decide)
  exact ⟨h.2.1 0, h.2.2.2⟩

/-- C2: once an entry exists its variant tag is fixed: every set with a
mismatched type returns failure and leaves the whole registry — hence
the entry's value, default, bounds and hints — entirely unchanged. -/
theorem spec_c2_type_immutability (s : fluid_settings_t) (name : String) (e : Entry)
    (h : settingsLookup s name = some e) :
    (entryType e ≠ FLUID_STR_TYPE → ∀ v, fluid_settings_setstr s name v = (s, false)) ∧
    (entryType e ≠ FLUID_NUM_TYPE → ∀ v, fluid_settings_setnum s name v = (s, false)) ∧
    (entryType e ≠ FLUID_INT_TYPE → ∀ v, fluid_settings_setint s name v = (s, false)) := by
  refine ⟨fun ht v => ?_, fun ht v => ?_, fun ht v => ?_⟩ <;>
    cases e <;>
      first
        | exact absurd rfl ht
        | simp [fluid_settings_setstr, fluid_settings_setnum, fluid_settings_setint, h]

theorem spec_c2_type_immutability_witness :
    fluid_settings_setstr (fluid_settings_setnum new_fluid_settings "k" 1).1 "k" "x" =
      ((fluid_settings_setnum new_fluid_settings "k" 1).1, false) ∧
    fluid_settings_getnum
        (fluid_settings_setstr (fluid_settings_setnum new_fluid_settings "k" 1).1 "k" "x").1
        "k" 0 = (true, 1) := by
  have h := spec_c2_type_immutability (fluid_settings_setnum new_fluid_settings "k" 1).1 "k"
      (Entry.num { value := 1, default := 1, min := DBL_MIN_RAT, max := DBL_MAX_RAT, hints := 0 })
      rfl
  have h1 := h.1 (by decide) "x"
  refine ⟨h1, ?_⟩
  rw [h1]
  decide

/-- C4: for a key with no entry, get_type returns NO_TYPE (and, being a
pure function of the registry, creates no entry), get_hints returns 0,
and every typed getter returns false with its out-parameter returned
unchanged; the same false-and-unchanged behaviour holds when the key
exists with a different type. -/
theorem spec_c4_unknown_key (s : fluid_settings_t) (name : String) :
    (settingsLookup s name = none →
        fluid_settings_get_type s name = FLUID_NO_TYPE ∧
        fluid_settings_get_hints s name = 0 ∧
        (∀ out : Rat, fluid_settings_getnum s name out = (false, out)) ∧
        (∀ out : Int, fluid_settings_getint s name out = (false, out)) ∧
        (∀ out : String, fluid_settings_getstr s name out = (false, out))) ∧
    (∀ e, settingsLookup s name = some e →
        (entryType e ≠ FLUID_NUM_TYPE →
            ∀ out : Rat, fluid_settings_getnum s name out = (false, out)) ∧
        (entryType e ≠ FLUID_INT_TYPE →
            ∀ out : Int, fluid_settings_getint s name out = (false, out)) ∧
        (entryType e ≠ FLUID_STR_TYPE →
            ∀ out : String, fluid_settings_getstr s name out = (false, out))) := by
  constructor
  · intro h
    refine ⟨?_, ?_, fun out => ?_, fun out => ?_, fun out => ?_⟩ <;>
      simp [fluid_settings_get_type, fluid_settings_get_hints, fluid_settings_getnum,
        fluid_settings_getint, fluid_settings_getstr, h]
  · intro e h
    refine ⟨fun ht out => ?_, fun ht out => ?_, fun ht out => ?_⟩ <;>
      cases e <;>
        first
          | exact absurd rfl ht
          | simp [fluid_settings_getnum, fluid_settings_getint, fluid_settings_getstr, h]

theorem spec_c4_unknown_key_witness :
    fluid_settings_get_type new_fluid_settings "never.set" = FLUID_NO_TYPE ∧
    fluid_settings_get_hints new_fluid_settings "never.set" = 0 ∧
    fluid_settings_getnum new_fluid_settings "never.set" 42 = (false, 42) := by
  have h := (spec_c4_unknown_key new_fluid_settings "never.set").1 rfl
  exact ⟨h.1, h.2.1, h.2.2.1 42⟩

/-- A clamped numeric write lands inside active, meaningful bounds. -/
theorem clampNum_mem {e : NumSetting} (v : Rat)
    (hb : hintSet e.hints FLUID_HINT_BOUNDED_BELOW = true)
    (ha : hintSet e.hints FLUID_HINT_BOUNDED_ABOVE = true)
    (hm : e.min ≤ e.max) :
    e.min ≤ clampNum e v ∧ clampNum e v ≤ e.max := by
  simp only [clampNum, hb, ha, true_and]
  split_ifs with h1 h2 h3 <;> constructor <;> linarith

/-- A clamped integer write lands inside active, meaningful bounds. -/
theorem clampInt_mem {e : IntSetting} (v : Int)
    (hb : hintSet e.hints FLUID_HINT_BOUNDED_BELOW = true)
    (ha : hintSet e.hints FLUID_HINT_BOUNDED_ABOVE = true)
    (hm : e.min ≤ e.max) :
    e.min ≤ clampInt e v ∧ clampInt e v ≤ e.max := by
  simp only [clampInt, hb, ha, true_and]
  split_ifs with h1 h2 h3 <;> constructor <;> omega

/-- C7: a successful write to a bounded numeric or integer entry never
stores an out-of-bounds value: whenever setnum/setint reports success
and the entry stored afterwards carries both bound hints with
meaningful bounds, its value satisfies min ≤ value ≤ max (out-of-range
writes are clamped, the policy the model fixes among the two the spec
allows; failure is never silently converted to success). -/
theorem spec_c7_bounds_consistency (s : fluid_settings_t) (name : String) :
    (∀ (v : Rat) (s₁ : fluid_settings_t) (e₁ : NumSetting),
        fluid_settings_setnum s name v = (s₁, true) →
        settingsLookup s₁ name = some (Entry.num e₁) →
        hintSet e₁.hints FLUID_HINT_BOUNDED_BELOW = true →
        hintSet e₁.hints FLUID_HINT_BOUNDED_ABOVE = true →
        e₁.min ≤ e₁.max →
        e₁.min ≤ e₁.value ∧ e₁.value ≤ e₁.max) ∧
    (∀ (v : Int) (s₁ : fluid_settings_t) (e₁ : IntSetting),
        fluid_settings_setint s name v = (s₁, true) →
        settingsLookup s₁ name = some (Entry.int e₁) →
        hintSet e₁.hints FLUID_HINT_BOUNDED_BELOW = true →
        hintSet e₁.hints FLUID_HINT_BOUNDED_ABOVE = true →
        e₁.min ≤ e₁.max →
        e₁.min ≤ e₁.value ∧ e₁.value ≤ e₁.max) := by
  constructor
  · intro v s₁ e₁ hset hlook hb ha hm
    rcases hl : settingsLookup s name with _ | e0
    · simp only [fluid_settings_setnum, hl] at hset
      have hs : s ++ [(name, Entry.num { value := v, default := v, min := DBL_MIN_RAT, max := DBL_MAX_RAT, hints := 0 })] = s₁ :=
        congrArg Prod.fst hset
      rw [← hs, settingsLookup_append_self _ hl] at hlook
      simp only [Option.some.injEq, Entry.num.injEq] at hlook
      rw [← hlook] at hb
      simp [hintSet] at hb
    · cases e0 with
      | num a =>
          simp only [fluid_settings_setnum, hl] at hset
          have hs : settingsUpdate s name (Entry.num { a with value := clampNum a v }) = s₁ :=
            congrArg Prod.fst hset
          rw [← hs, settingsLookup_update_self _ hl] at hlook
          simp only [Option.some.injEq, Entry.num.injEq] at hlook
          rw [← hlook] at hb ha hm ⊢
          exact clampNum_mem v hb ha hm
      | int a => simp [fluid_settings_setnum, hl] at hset
      | str a => simp [fluid_settings_setnum, hl] at hset
      | set a => simp [fluid_settings_setnum, hl] at hset
  · intro v s₁ e₁ hset hlook hb ha hm
    rcases hl : settingsLookup s name with _ | e0
    · simp only [fluid_settings_setint, hl] at hset
      have hs : s ++ [(name, Entry.int { value := toCInt v, default := toCInt v, min := INT32_MIN, max := INT32_MAX, hints := 0 })] = s₁ :=
        congrArg Prod.fst hset
      rw [← hs, settingsLookup_append_self _ hl] at hlook
      simp only [Option.some.injEq, Entry.int.injEq] at hlook
      rw [← hlook] at hb
      simp [hintSet] at hb
    · cases e0 with
      | int a =>
          simp only [fluid_settings_setint, hl] at hset
          have hs : settingsUpdate s name (Entry.int { a with value := clampInt a (toCInt v) }) = s₁ :=
            congrArg Prod.fst hset
          rw [← hs, settingsLookup_update_self _ hl] at hlook
          simp only [Option.some.injEq, Entry.int.injEq] at hlook
          rw [← hlook] at hb ha hm ⊢
          exact clampInt_mem (toCInt v) hb ha hm
      | num a => simp [fluid_settings_setint, hl] at hset
      | str a => simp [fluid_settings_setint, hl] at hset
      | set a => simp [fluid_settings_setint, hl] at hset

theorem spec_c7_bounds_consistency_witness :
    (fluid_settings_setnum (fluid_settings_register_num new_fluid_settings "k" 5 0 10 3).1
        "k" 15).2 = true ∧
    fluid_settings_getnum
        (fluid_settings_setnum (fluid_settings_register_num new_fluid_settings "k" 5 0 10 3).1
          "k" 15).1 "k" 0 = (true, 10) ∧
    (0 : Rat) ≤ 10 ∧ (10 : Rat) ≤ 10 := by
  refine ⟨rfl, by decide, ?_⟩
  have h := (spec_c7_bounds_consistency
      (fluid_settings_register_num new_fluid_settings "k" 5 0 10 3).1 "k").1 15
      (fluid_settings_setnum (fluid_settings_register_num new_fluid_settings "k" 5 0 10 3).1
        "k" 15).1
      { value := 10, default := 5, min := 0, max := 10, hints := 3 }
      (by decide) (by decide) (by decide) (by decide) (by decide)
  exact h

/-- C8: get_range is total (it always writes both out-parameters, the
function returns void): it writes the widest representable bounds of
the declared C type when the key is unknown or its entry carries no
bound hints, and the entry's stored min and max when both bound hints
are active. -/
theorem spec_c8_get_range (s : fluid_settings_t) (name : String) :
    (settingsLookup s name = none →
        fluid_settings_getnum_range s name = (DBL_MIN_RAT, DBL_MAX_RAT) ∧
        fluid_settings_getint_range s name = (INT32_MIN, INT32_MAX)) ∧
    (∀ e : NumSetting, settingsLookup s name = some (Entry.num e) →
        (hintSet e.hints FLUID_HINT_BOUNDED_BELOW = false →
            hintSet e.hints FLUID_HINT_BOUNDED_ABOVE = false →
            fluid_settings_getnum_range s name = (DBL_MIN_RAT, DBL_MAX_RAT)) ∧
        (hintSet e.hints FLUID_HINT_BOUNDED_BELOW = true →
            hintSet e.hints FLUID_HINT_BOUNDED_ABOVE = true →
            fluid_settings_getnum_range s name = (e.min, e.max))) ∧
    (∀ e : IntSetting, settingsLookup s name = some (Entry.int e) →
        (hintSet e.hints FLUID_HINT_BOUNDED_BELOW = false →
            hintSet e.hints FLUID_HINT_BOUNDED_ABOVE = false →
            fluid_settings_getint_range s name = (INT32_MIN, INT32_MAX)) ∧
        (hintSet e.hints FLUID_HINT_BOUNDED_BELOW = true →
            hintSet e.hints FLUID_HINT_BOUNDED_ABOVE = true →
            fluid_settings_getint_range s name = (e.min, e.max))) := by
  refine ⟨fun h => ?_, fun e h => ⟨fun hb ha => ?_, fun hb ha => ?_⟩,
    fun e h => ⟨fun hb ha => ?_, fun hb ha => ?_⟩⟩
  · constructor <;> simp [fluid_settings_getnum_range, fluid_settings_getint_range, h]
  · simp [fluid_settings_getnum_range, h, hb, ha]
  · simp [fluid_settings_getnum_range, h, hb, ha]
  · simp [fluid_settings_getint_range, h, hb, ha]
  · simp [fluid_settings_getint_range, h, hb, ha]

theorem spec_c8_get_range_witness :
    fluid_settings_getnum_range new_fluid_settings "never.set" = (DBL_MIN_RAT, DBL_MAX_RAT) ∧
    fluid_settings_getint_range new_fluid_settings "never.set" = (INT32_MIN, INT32_MAX) ∧
    fluid_settings_getnum_range (fluid_settings_register_num new_fluid_settings "k" 5 0 10 3).1
      "k" = (0, 10) ∧
    fluid_settings_getnum_range
      (fluid_settings_register_num new_fluid_settings "t" 5 0 10 FLUID_HINT_TOGGLED).1 "t" =
      (DBL_MIN_RAT, DBL_MAX_RAT) := by
  have h1 := (spec_c8_get_range new_fluid_settings "never.set").1 rfl
  have h2 := ((spec_c8_get_range (fluid_settings_register_num new_fluid_settings "k" 5 0 10 3).1
      "k").2.1 { value := 5, default := 5, min := 0, max := 10, hints := 3 } rfl).2
      (by decide) (by decide)
  have h3 := ((spec_c8_get_range
      (fluid_settings_register_num new_fluid_settings "t" 5 0 10 FLUID_HINT_TOGGLED).1
      "t").2.1 { value := 5, default := 5, min := 0, max := 10, hints := FLUID_HINT_TOGGLED }
      rfl).1 (by decide) (by decide)
  exact ⟨h1.1, h1.2, h2, h3⟩

/-- C6: for a string entry carrying the OPTIONLIST hint, option_count
returns the size of the options sequence and the option traversals
visit each option exactly once, the alpha variant sorted in byte-wise
lexicographic order; on a key that is unknown, not of string type, or
without the OPTIONLIST hint, option_count returns 0 and both
traversals visit nothing. -/
theorem spec_c6_option_enumeration (s : fluid_settings_t) (name : String) :
    (∀ e : StrSetting, settingsLookup s name = some (Entry.str e) →
        hintSet e.hints FLUID_HINT_OPTIONLIST = true →
        fluid_settings_option_count s name = (e.options.length : Int) ∧
        fluid_settings_foreach_option s name = e.options ∧
        (fluid_settings_foreach_option_alpha s name).Perm e.options ∧
        List.Sorted strLeP (fluid_settings_foreach_option_alpha s name)) ∧
    ((∀ e : StrSetting, settingsLookup s name = some (Entry.str e) →
        hintSet e.hints FLUID_HINT_OPTIONLIST = false) →
        fluid_settings_option_count s name = 0 ∧
        fluid_settings_foreach_option s name = [] ∧
        fluid_settings_foreach_option_alpha s name = []) := by
  constructor
  · intro e h hopt
    have hfe : fluid_settings_foreach_option s name = e.options := by
      simp [fluid_settings_foreach_option, h, hopt]
    refine ⟨by simp [fluid_settings_option_count, h, hopt], hfe, ?_, ?_⟩
    · rw [fluid_settings_foreach_option_alpha, hfe]
      exact List.perm_insertionSort strLeP e.options
    · rw [fluid_settings_foreach_option_alpha]
      exact List.sorted_insertionSort strLeP _
  · intro hno
    have hfe : fluid_settings_foreach_option s name = [] := by
      rcases hl : settingsLookup s name with _ | e
      · simp [fluid_settings_foreach_option, hl]
      · cases e with
        | str a => simp [fluid_settings_foreach_option, hl, hno a hl]
        | num a => simp [fluid_settings_foreach_option, hl]
        | int a => simp [fluid_settings_foreach_option, hl]
        | set a => simp [fluid_settings_foreach_option, hl]
    have hcount : fluid_settings_option_count s name = 0 := by
      rcases hl : settingsLookup s name with _ | e
      · simp [fluid_settings_option_count, hl]
      · cases e with
        | str a => simp [fluid_settings_option_count, hl, hno a hl]
        | num a => simp [fluid_settings_option_count, hl]
        | int a => simp [fluid_settings_option_count, hl]
        | set a => simp [fluid_settings_option_count, hl]
    refine ⟨hcount, hfe, ?_⟩
    rw [fluid_settings_foreach_option_alpha, hfe]
    rfl

theorem spec_c6_option_enumeration_witness :
    fluid_settings_option_count
        (fluid_settings_register_str new_fluid_settings "audio.driver" "jack" 2
          ["jack", "alsa", "pulse"]).1 "audio.driver" = 3 ∧
    fluid_settings_foreach_option_alpha
        (fluid_settings_register_str new_fluid_settings "audio.driver" "jack" 2
          ["jack", "alsa", "pulse"]).1 "audio.driver" = ["alsa", "jack", "pulse"] ∧
    fluid_settings_option_count new_fluid_settings "none.such" = 0 ∧
    fluid_settings_foreach_option_alpha new_fluid_settings "none.such" = [] := by
  have h := (spec_c6_option_enumeration
      (fluid_settings_register_str new_fluid_settings "audio.driver" "jack" 2
        ["jack", "alsa", "pulse"]).1 "audio.driver").1
      { value := "jack", default := "jack", hints := 2, options := ["jack", "alsa", "pulse"] }
      rfl (by decide)
  have h2 := (spec_c6_option_enumeration new_fluid_settings "none.such").2
      (fun e he => by simp [new_fluid_settings, settingsLookup] at he)
  refine ⟨?_, by decide, h2.1, h2.2.2⟩
  rw [h.1]
  rfl

/-- The keys visited by the alpha traversal are the sorted key list. -/
instance (s : fluid_settings_t) : Decidable (settingsWF s) :=
  inferInstanceAs (Decidable ((settingsKeys s).Nodup))

theorem foreach_alpha_keys (s : fluid_settings_t) :
    (fluid_settings_foreach_alpha s).map Prod.fst =
      List.insertionSort strLeP (settingsKeys s) := by
  rw [fluid_settings_foreach_alpha, List.map_map]
  exact List.map_id _

/-- C5: the alpha traversal visits exactly the registered keys, each
exactly once, in byte-wise lexicographic order, and its output depends
only on the key-to-entry map, not on insertion order; the plain
traversal visits exactly the registered keys, each exactly once, in
the registry's own stable (insertion) order. -/
theorem spec_c5_sorted_enumeration (s : fluid_settings_t) (h : settingsWF s) :
    List.Sorted strLeP ((fluid_settings_foreach_alpha s).map Prod.fst) ∧
    ((fluid_settings_foreach_alpha s).map Prod.fst).Perm (settingsKeys s) ∧
    ((fluid_settings_foreach_alpha s).map Prod.fst).Nodup ∧
    (∀ s₂, settingsWF s₂ → (∀ k, settingsLookup s k = settingsLookup s₂ k) →
        fluid_settings_foreach_alpha s = fluid_settings_foreach_alpha s₂) ∧
    (fluid_settings_foreach s).map Prod.fst = settingsKeys s ∧
    (settingsKeys s).Nodup := by
  have hperm : (List.insertionSort strLeP (settingsKeys s)).Perm (settingsKeys s) :=
    List.perm_insertionSort strLeP (settingsKeys s)
  refine ⟨?_, ?_, ?_, ?_, ?_, h⟩
  · rw [foreach_alpha_keys]
    exact List.sorted_insertionSort strLeP _
  · rw [foreach_alpha_keys]
    exact hperm
  · rw [foreach_alpha_keys]
    exact (hperm.nodup_iff).mpr h
  · intro s₂ h₂ heq
    have hkeyperm : (settingsKeys s).Perm (settingsKeys s₂) := by
      refine (List.perm_ext_iff_of_nodup h h₂).mpr (fun a => ?_)
      rw [← settingsLookup_isSome_iff, ← settingsLookup_isSome_iff, heq a]
    have hsorteq : List.insertionSort strLeP (settingsKeys s) =
        List.insertionSort strLeP (settingsKeys s₂) := by
      refine List.eq_of_perm_of_sorted ?_ (List.sorted_insertionSort strLeP _)
        (List.sorted_insertionSort strLeP _)
      exact hperm.trans (hkeyperm.trans (List.perm_insertionSort strLeP _).symm)
    rw [fluid_settings_foreach_alpha, fluid_settings_foreach_alpha, hsorteq]
    refine List.map_congr_left (fun k hk => ?_)
    rw [fluid_settings_get_type, fluid_settings_get_type, heq k]
  · simp [fluid_settings_foreach, settingsKeys, List.map_map, Function.comp]

theorem spec_c5_sorted_enumeration_witness :
    settingsWF (applyOps new_fluid_settings
      [SettingsOp.setnum "b.x" 1, SettingsOp.setnum "a.y" 2, SettingsOp.setnum "a.x" 3]) ∧
    List.Sorted strLeP ((fluid_settings_foreach_alpha (applyOps new_fluid_settings
      [SettingsOp.setnum "b.x" 1, SettingsOp.setnum "a.y" 2,
        SettingsOp.setnum "a.x" 3])).map Prod.fst) ∧
    fluid_settings_foreach_alpha (applyOps new_fluid_settings
      [SettingsOp.setnum "b.x" 1, SettingsOp.setnum "a.y" 2, SettingsOp.setnum "a.x" 3]) =
      [("a.x", FLUID_NUM_TYPE), ("a.y", FLUID_NUM_TYPE), ("b.x", FLUID_NUM_TYPE)] ∧
    fluid_settings_foreach (applyOps new_fluid_settings
      [SettingsOp.setnum "b.x" 1, SettingsOp.setnum "a.y" 2, SettingsOp.setnum "a.x" 3]) =
      [("b.x", FLUID_NUM_TYPE), ("a.y", FLUID_NUM_TYPE), ("a.x", FLUID_NUM_TYPE)] := by
  have h := spec_c5_sorted_enumeration (applyOps new_fluid_settings
      [SettingsOp.setnum "b.x" 1, SettingsOp.setnum "a.y" 2, SettingsOp.setnum "a.x" 3])
      (by decide)
  exact ⟨by decide, h.1, by decide, by decide⟩
